import Mathlib

/-!
Verification development for the InboxV3 job lifecycle and worker pipeline.

The definitions below are shallow embeddings of the Python source:
  * `job_service.py` — job statuses, the atomic claim operation, the
    file-reference decode/resolution logic (`get_file_data`);
  * `worker.py` — the worker poll cycle, the per-file pipeline
    (`process_file` of `process_classify_job` / `process_analyze_job`), the
    per-job handlers' progress/aggregation loops and their retry/error paths;
  * `main.py` — the async ingestion endpoints' write ordering.

Python `dict`/JSON values are modelled by `JValue`; `json.loads` and
`json.dumps` are modelled by an executable fuelled parser / serializer over
the JSON fragment this repository actually stores (null, booleans, integers,
strings, arrays, objects).  Exceptions are modelled by the `PyExn` record
(type name, message, optional `.code` attribute); functions that may raise
return `Except PyExn _`.
-/

namespace InboxV3

/-- Job status enumeration, from `job_service.py` lines 17-23
(`class JobStatus(str, Enum)` with members CREATED, READY, PROCESSING,
COMPLETED, FAILED). -/
inductive JobStatus where
  | created
  | ready
  | processing
  | completed
  | failed
deriving DecidableEq, Repr

/-- The `.value` string of each `JobStatus` member (`job_service.py` 19-23). -/
def JobStatus.value : JobStatus → String
  | .created => "created"
  | .ready => "ready"
  | .processing => "processing"
  | .completed => "completed"
  | .failed => "failed"

/-- Attribute lookup `JobStatus.<NAME>` on the enum class: returns the member
for a declared member name and `none` otherwise (Python raises
`AttributeError` in the `none` case).  The member list is exactly the one
declared in `job_service.py` lines 17-23. -/
def jobStatusMember : String → Option JobStatus
  | "CREATED" => some .created
  | "READY" => some .ready
  | "PROCESSING" => some .processing
  | "COMPLETED" => some .completed
  | "FAILED" => some .failed
  | _ => none

/-- JSON values as stored/returned by the database client.  Numbers are
restricted to integers, which covers every numeric field this repository
stores (`size`, counters). -/
inductive JValue where
  | null
  | bool (b : Bool)
  | num (n : Int)
  | str (s : String)
  | arr (elems : List JValue)
  | obj (fields : List (String × JValue))

/-- Python truthiness of a JSON value (`if x:`): `None`, `False`, `0`, `""`,
`[]`, `{}` are falsy, everything else truthy. -/
def jTruthy : JValue → Bool
  | .null => false
  | .bool b => b
  | .num n => n != 0
  | .str s => s != ""
  | .arr xs => !xs.isEmpty
  | .obj fs => !fs.isEmpty

/-- Python `v == s` for a JSON value compared against a string literal:
true exactly when `v` is that string. -/
def jIsStr (v : JValue) (s : String) : Bool :=
  match v with
  | .str t => t == s
  | _ => false

/-- `d.get(key)` on a JSON object: first binding wins, `none` if absent or if
the value is not an object. -/
def jGet : JValue → String → Option JValue
  | .obj fs, k => fs.lookup k
  | _, _ => none

/-- `d.get(key, default)`. -/
def jGetD (v : JValue) (k : String) (dflt : JValue) : JValue :=
  (jGet v k).getD dflt

/-- `key in d` for a JSON object (key presence, regardless of the value). -/
def jHasKey (v : JValue) (k : String) : Bool :=
  (jGet v k).isSome

/-- A Python exception: its type name, its `str(e)` message, and the optional
`.code` attribute inspected by `is_transient_error`. -/
structure PyExn where
  typeName : String
  msg : String
  code : Option Int := none
deriving DecidableEq, Repr

/-! ### String helpers mirroring Python primitives -/

/-- Whitespace stripped by Python's `str.strip()`. -/
def isPyWs (c : Char) : Bool :=
  c = ' ' ∨ c = '\t' ∨ c = '\n' ∨ c = '\r' ∨ c = '\x0b' ∨ c = '\x0c'

/-- Python `str.strip()`. -/
def pyStrip (s : String) : String :=
  ⟨(s.data.dropWhile isPyWs).reverse.dropWhile isPyWs |>.reverse⟩

/-- One step of Python `str.replace`: scan left to right, replacing each
non-overlapping occurrence of `pat` (assumed non-empty) by `rep`. -/
def replaceChars (pat rep : List Char) : Nat → List Char → List Char
  | 0, cs => cs
  | _ + 1, [] => []
  | fuel + 1, c :: cs =>
      if pat.isPrefixOf (c :: cs) then
        rep ++ replaceChars pat rep fuel ((c :: cs).drop pat.length)
      else
        c :: replaceChars pat rep fuel cs

/-- Python `s.replace(pat, rep)` for a non-empty `pat`. -/
def pyReplace (s pat rep : String) : String :=
  ⟨replaceChars pat.data rep.data s.length s.data⟩

/-- ASCII lowercasing of one character (Python `str.lower` on the ASCII
error messages this repository matches against). -/
def pyLowerChar (c : Char) : Char :=
  if 'A' ≤ c ∧ c ≤ 'Z' then Char.ofNat (c.toNat + 32) else c

/-- Python `str.lower()`. -/
def pyLower (s : String) : String :=
  ⟨s.data.map pyLowerChar⟩

/-- Python `s.startswith(pre)`. -/
def strStartsWith (s pre : String) : Bool :=
  pre.data.isPrefixOf s.data

/-- Python `s.endswith(suf)`. -/
def strEndsWith (s suf : String) : Bool :=
  suf.data.reverse.isPrefixOf s.data.reverse

def splitAux (sep : Char) : List Char → List Char → List String
  | [], acc => [⟨acc.reverse⟩]
  | c :: cs, acc =>
    if c = sep then ⟨acc.reverse⟩ :: splitAux sep cs [] else splitAux sep cs (c :: acc)

/-- Python `s.split(sep)` for a one-character separator. -/
def pySplitChar (s : String) (sep : Char) : List String :=
  splitAux sep s.data []

/-- Substring occurrence over character lists. -/
def listInfixOf (needle : List Char) : List Char → Bool
  | [] => needle.isEmpty
  | c :: cs => needle.isPrefixOf (c :: cs) || listInfixOf needle cs

/-- Python `needle in haystack` substring test. -/
def strContains (haystack needle : String) : Bool :=
  listInfixOf needle.data haystack.data

/-- `PurePosixPath(p).name`: the final path component, with empty and `"."`
segments dropped (POSIX relative paths, which is all this repository
builds). -/
def posixPathName (p : String) : String :=
  let segs := (pySplitChar p '/').filter (fun s => s ≠ "" ∧ s ≠ ".")
  segs.getLast?.getD ""

/-- `PurePosixPath(name).suffix` for a slash-free `name`: the substring from
the last dot, provided that dot is neither the first nor the last
character. -/
def posixSuffix (name : String) : String :=
  let cs := name.data
  match (List.range cs.length).filter (fun i => cs.get? i = some '.') with
  | [] => ""
  | is =>
    let i := is.getLast?.getD 0
    if 0 < i ∧ i < cs.length - 1 then ⟨cs.drop i⟩ else ""

/-! ### A `json.loads` / `json.dumps` model

Executable fuelled parser for the JSON fragment stored by this repository.
`jsonLoads` fails (models `json.JSONDecodeError`) on malformed input and on
trailing non-whitespace (Python's "Extra data" error). -/

def skipWs : List Char → List Char
  | c :: cs => if c = ' ' ∨ c = '\t' ∨ c = '\n' ∨ c = '\r' then skipWs cs else c :: cs
  | [] => []

/-- Parse the body of a JSON string literal after the opening quote,
handling the standard escape sequences. -/
def parseStrBody : Nat → List Char → List Char → Option (String × List Char)
  | 0, _, _ => none
  | _ + 1, acc, '"' :: rest => some (⟨acc.reverse⟩, rest)
  | fuel + 1, acc, '\\' :: e :: rest =>
      match e with
      | '"' => parseStrBody fuel ('"' :: acc) rest
      | '\\' => parseStrBody fuel ('\\' :: acc) rest
      | '/' => parseStrBody fuel ('/' :: acc) rest
      | 'n' => parseStrBody fuel ('\n' :: acc) rest
      | 't' => parseStrBody fuel ('\t' :: acc) rest
      | 'r' => parseStrBody fuel ('\r' :: acc) rest
      | 'b' => parseStrBody fuel ('\x08' :: acc) rest
      | 'f' => parseStrBody fuel ('\x0c' :: acc) rest
      | _ => none
  | fuel + 1, acc, c :: rest =>
      if c = '\\' then none else parseStrBody fuel (c :: acc) rest
  | _ + 1, _, [] => none

def parseDigits : Nat → Nat → List Char → Option (Nat × List Char)
  | 0, _, _ => none
  | fuel + 1, acc, c :: rest =>
      if c.isDigit then
        match parseDigits fuel (acc * 10 + (c.toNat - '0'.toNat)) rest with
        | some r => some r
        | none => some (acc * 10 + (c.toNat - '0'.toNat), rest)
      else none
  | _ + 1, _, [] => none

/-- Parse an optionally signed integer literal. -/
def parseIntLit (cs : List Char) : Option (Int × List Char) :=
  match cs with
  | '-' :: rest =>
      match parseDigits rest.length 0 rest with
      | some (n, r) => some (-(n : Int), r)
      | none => none
  | _ =>
      match parseDigits cs.length 0 cs with
      | some (n, r) => some ((n : Int), r)
      | none => none

mutual

def parseVal : Nat → List Char → Option (JValue × List Char)
  | 0, _ => none
  | fuel + 1, cs =>
    match skipWs cs with
    | '"' :: rest =>
        match parseStrBody rest.length [] rest with
        | some (s, r) => some (.str s, r)
        | none => none
    | '[' :: rest =>
        (match skipWs rest with
         | ']' :: r => some (.arr [], r)
         | _ =>
            match parseArrItems fuel (skipWs rest) with
            | some (xs, r) => some (.arr xs, r)
            | none => none)
    | '{' :: rest =>
        (match skipWs rest with
         | '}' :: r => some (.obj [], r)
         | _ =>
            match parseObjItems fuel (skipWs rest) with
            | some (fs, r) => some (.obj fs, r)
            | none => none)
    | 't' :: 'r' :: 'u' :: 'e' :: rest => some (.bool true, rest)
    | 'f' :: 'a' :: 'l' :: 's' :: 'e' :: rest => some (.bool false, rest)
    | 'n' :: 'u' :: 'l' :: 'l' :: rest => some (.null, rest)
    | other =>
        match parseIntLit other with
        | some (n, r) => some (.num n, r)
        | none => none

def parseArrItems : Nat → List Char → Option (List JValue × List Char)
  | 0, _ => none
  | fuel + 1, cs =>
    match parseVal fuel cs with
    | none => none
    | some (v, rest) =>
      match skipWs rest with
      | ',' :: r =>
          (match parseArrItems fuel r with
           | some (xs, r') => some (v :: xs, r')
           | none => none)
      | ']' :: r => some ([v], r)
      | _ => none

def parseObjItems : Nat → List Char → Option (List (String × JValue) × List Char)
  | 0, _ => none
  | fuel + 1, cs =>
    match skipWs cs with
    | '"' :: rest =>
      (match parseStrBody rest.length [] rest with
       | none => none
       | some (k, rest') =>
         match skipWs rest' with
         | ':' :: r =>
           (match parseVal fuel r with
            | none => none
            | some (v, rest'') =>
              match skipWs rest'' with
              | ',' :: r' =>
                  (match parseObjItems fuel r' with
                   | some (fs, r'') => some ((k, v) :: fs, r'')
                   | none => none)
              | '}' :: r' => some ([(k, v)], r')
              | _ => none)
         | _ => none)
    | _ => none

end

/-- `json.loads`: parse a complete JSON document; fail on malformed input or
trailing data. -/
def jsonLoads (s : String) : Option JValue :=
  match parseVal (2 * s.length + 2) s.data with
  | some (v, rest) => if skipWs rest = [] then some v else none
  | none => none

/-- JSON string-literal escaping as performed by `json.dumps` on the
characters appearing in this repository's data. -/
def jsonEscapeChar (c : Char) : List Char :=
  if c = '"' then ['\\', '"']
  else if c = '\\' then ['\\', '\\']
  else if c = '\n' then ['\\', 'n']
  else if c = '\t' then ['\\', 't']
  else if c = '\r' then ['\\', 'r']
  else [c]

def jsonEscape (s : String) : String :=
  ⟨s.data.foldr (fun c acc => jsonEscapeChar c ++ acc) []⟩

mutual

/-- `json.dumps` with the default separators `", "` and `": "`. -/
def jsonDumps : JValue → String
  | .null => "null"
  | .bool true => "true"
  | .bool false => "false"
  | .num n => toString n
  | .str s => "\"" ++ jsonEscape s ++ "\""
  | .arr xs => "[" ++ dumpsList xs ++ "]"
  | .obj fs => "\x7b" ++ dumpsFields fs ++ "\x7d"

def dumpsList : List JValue → String
  | [] => ""
  | [x] => jsonDumps x
  | x :: xs => jsonDumps x ++ ", " ++ dumpsList xs

def dumpsFields : List (String × JValue) → String
  | [] => ""
  | [(k, v)] => "\"" ++ jsonEscape k ++ "\": " ++ jsonDumps v
  | (k, v) :: fs => "\"" ++ jsonEscape k ++ "\": " ++ jsonDumps v ++ ", " ++ dumpsFields fs

end

/-! ### Storage adapter: decoding the `file_storage_urls` column

From `get_file_data`, `job_service.py` lines 424-455.  The stored column
value is `none` (SQL NULL) or a JSON value (a native list, or a string when
the backing store round-trips JSONB as text). -/

/-- Decode of the preferred full-metadata field, `job_service.py` 424-455:
skip when NULL or `""`; when a string, `json.loads` it; on
`JSONDecodeError` strip one layer of surrounding quotes, undo the escape
replacements (`\\" -> "`, `\\n -> newline`, `\\\\ -> \\`, in that order) and
parse again; finally use the value only if it is a non-empty list. -/
def decodeFullMeta (v0 : Option JValue) : Option (List JValue) :=
  match v0 with
  | none => none
  | some v =>
    if jIsStr v "" then none
    else
      let parsed : Option JValue :=
        match v with
        | .str s =>
          (match jsonLoads s with
           | some w => some w
           | none =>
             let cleaned := pyStrip s
             let cleaned :=
               if strStartsWith cleaned "\"" && strEndsWith cleaned "\"" then
                 (cleaned.drop 1).dropRight 1
               else cleaned
             let cleaned :=
               pyReplace (pyReplace (pyReplace cleaned "\\\"" "\"") "\\n" "\n") "\\\\" "\\"
             jsonLoads cleaned)
        | w => some w
      match parsed with
      | some (.arr xs) => if xs.length > 0 then some xs else none
      | _ => none

/-- Expansion of one simple locator into full file metadata,
`job_service.py` 463-471: `filename` is the path's final segment when the
locator contains a slash (else the locator itself), `suffix` is that
filename's extension, `size` is null. -/
def expandLocator (p : String) : JValue :=
  let filename := if strContains p "/" then posixPathName p else p
  .obj [("filename", .str filename),
        ("file_path", .str p),
        ("suffix", .str (if filename != "" then posixSuffix filename else "")),
        ("size", .null)]

/-- The loop over `file_urls` (`job_service.py` 462-471): falsy entries are
skipped; a truthy non-string entry makes `"/" in file_path` raise
`TypeError`, which `get_file_data`'s outer handler turns into `None`
(modelled by `.error`). -/
def expandSimple : List JValue → Except Unit (List JValue)
  | [] => .ok []
  | u :: us =>
    if jTruthy u then
      match u with
      | .str p => (expandSimple us).map (expandLocator p :: ·)
      | _ => .error ()
    else expandSimple us

/-- Decode of the legacy `file_data` field, `job_service.py` 477-487: skip
when falsy; parse when a string (a parse failure returns `None` from
`get_file_data`); use only a non-empty list. -/
def decodeLegacy (v0 : Option JValue) : Option (List JValue) :=
  match v0 with
  | none => none
  | some v =>
    if jTruthy v then
      match v with
      | .str s =>
        (match jsonLoads s with
         | some (.arr xs) => if xs.length > 0 then some xs else none
         | _ => none)
      | .arr xs => if xs.length > 0 then some xs else none
      | _ => none
    else none

/-- The three file-reference columns of a job row, as fetched by `get_job`. -/
structure JobRowFiles where
  fileStorageUrls : Option JValue := none
  fileUrls : Option JValue := none
  fileDataOld : Option JValue := none

/-- `get_file_data` (`job_service.py` 403-502) restricted to the resolution
logic over an already-fetched row: full metadata first, then the simple
`file_urls` locator list (used only when it is a non-empty list and expands
to at least one entry), then the legacy `file_data` field; `none` when no
source yields data. -/
def getFileData (row : JobRowFiles) : Option (List JValue) :=
  match decodeFullMeta row.fileStorageUrls with
  | some xs => some xs
  | none =>
    match row.fileUrls with
    | some (.arr us) =>
      if !us.isEmpty then
        match expandSimple us with
        | .error _ => none
        | .ok fd => if !fd.isEmpty then some fd else decodeLegacy row.fileDataOld
      else decodeLegacy row.fileDataOld
    | _ => decodeLegacy row.fileDataOld

/-! ### The atomic claim operation (`job_service.py` 333-363)

The jobs table is modelled as a list of rows; the Supabase
`update ... eq("id", job_id).eq("status", "ready")` is a conditional update
applied atomically, returning the list of updated rows (`response.data`). -/

/-- One stored job row (the fields the claim operation touches). -/
structure DBJob where
  id : String
  status : JobStatus
deriving DecidableEq, Repr

/-- `claim_job` (`job_service.py` 333-363): set `status = PROCESSING` on
rows matching `id = jobId AND status = READY`; return the first updated row
(`response.data[0]`) if any row matched, else `none`, together with the
table after the update. -/
def claimJob (jobId : String) (db : List DBJob) : Option DBJob × List DBJob :=
  let newDb := db.map fun j =>
    if j.id = jobId ∧ j.status = .ready then { j with status := .processing } else j
  let updated := db.filterMap fun j =>
    if j.id = jobId ∧ j.status = .ready then some { j with status := .processing } else none
  (updated.head?, newDb)

/-- `N` workers' concurrent claim attempts on the same job: the conditional
update is atomic at the store, so the attempts serialize; this returns the
per-attempt outcomes in the serialization order, with the table threaded
through. -/
def claimAttempts (jobId : String) : Nat → List DBJob → List (Option DBJob) × List DBJob
  | 0, db => ([], db)
  | n + 1, db =>
    let (r, db') := claimJob jobId db
    let (rs, db'') := claimAttempts jobId n db'
    (r :: rs, db'')

/-! ### The worker poll cycle (`worker.py` 611-686)

One poll cycle fetches READY jobs (`get_pending_jobs(limit=10)`), takes the
first 3 and dispatches each to its per-job handler by `endpoint_type`
(`worker.py` 638-651).  The event vocabulary includes a claim-attempt event
so that the absence of any call to `claim_job` is expressible; the loop body
never emits it. -/

/-- A job as seen by the poll loop. -/
structure PendingJob where
  id : String
  endpointType : Option String := none
deriving DecidableEq, Repr

inductive LoopEvent where
  | claimAttempt (jobId : String)
  | dispatchClassify (jobId : String)
  | dispatchAnalyze (jobId : String)
deriving DecidableEq, Repr

def LoopEvent.isClaimAttempt : LoopEvent → Bool
  | .claimAttempt _ => true
  | _ => false

/-- The dispatch portion of one poll cycle, `worker.py` 638-651: for each of
the first 3 pending jobs, read `endpoint_type` (default `"classify"`) and
dispatch the matching handler.  No claim is attempted. -/
def pollCycleDispatch (pendingJobs : List PendingJob) : List LoopEvent :=
  (pendingJobs.take 3).map fun job =>
    if job.endpointType.getD "classify" = "analyze" then .dispatchAnalyze job.id
    else .dispatchClassify job.id

/-! ### The per-file pipeline (`worker.py` `process_file`, 188-304 and 423-534)

Each file's interaction with the external world (filesystem, blob store,
extraction service, LLM) is captured by a `FileEnv` oracle; the pipeline's
control flow over those outcomes is translated from the source.  The byte
buffers themselves never influence control flow and are modelled as `Unit`. -/

/-- `str(value)` for the values interpolated into error messages.  Container
rendering is abbreviated; no theorem depends on it. -/
def pyStrJ : JValue → String
  | .null => "None"
  | .bool true => "True"
  | .bool false => "False"
  | .num n => toString n
  | .str s => s
  | .arr _ => "<list>"
  | .obj _ => "<dict>"

/-- `str(d.get(k))` (Python renders a missing key's `None` as `"None"`). -/
def pyStrJOpt : Option JValue → String
  | none => "None"
  | some v => pyStrJ v

def valueError (m : String) : PyExn := { typeName := "ValueError", msg := m }

/-- `str(KeyError(k))` is the repr of the key. -/
def keyError (k : String) : PyExn := { typeName := "KeyError", msg := "\x27" ++ k ++ "\x27" }

def typeError (m : String) : PyExn := { typeName := "TypeError", msg := m }

/-- Outcome of the awaited LLM call inside `asyncio.wait_for`:
a returned dict, a timeout (`asyncio.TimeoutError`, whose `str` is empty),
or a raised exception. -/
inductive LLMOutcome where
  | ok (result : JValue)
  | timeout
  | exn (e : PyExn)

/-- The external world as observed by one file's pipeline run. -/
structure FileEnv where
  /-- `os.path.exists(storage_file_path)` -/
  pathExists : String → Bool := fun _ => false
  /-- `open(file_path, "rb").read()`; the bytes are opaque -/
  localRead : String → Except PyExn Unit := fun _ => .ok ()
  /-- `create_signed_url(path, expires_in=3600)`; `none` models a falsy result -/
  signedUrl : String → Option String := fun _ => none
  /-- `download_file_from_storage(url)`; `none` models a falsy result -/
  download : String → Option Unit := fun _ => none
  /-- `textract_service.extract_text_from_upload(...)` for this file -/
  extractText : Except PyExn String := .ok ""
  /-- `openai_service.classify_document` / `analyze_document` for this file -/
  llm : LLMOutcome := .timeout

/-- Byte resolution, `worker.py` 194-251 (duplicated verbatim at 429-486):
prefer the `file_path` key (local filesystem if it exists, else signed URL +
download), fall back to the legacy `storage_url` key, else raise.  A truthy
non-string path raises `TypeError` at the filesystem call. -/
def resolveBytes (env : FileEnv) (fileInfo : JValue) : Except PyExn Unit :=
  if jHasKey fileInfo "file_path" then
    let sp := jGetD fileInfo "file_path" .null
    if jTruthy sp then
      match sp with
      | .str p =>
        if env.pathExists p then env.localRead p
        else
          match env.signedUrl p with
          | none => .error (valueError ("Failed to create signed URL for: " ++ p))
          | some url =>
            match env.download url with
            | none => .error (valueError ("Failed to download file from storage: " ++ p))
            | some _ => .ok ()
      | _ => .error (typeError "expected str, bytes or os.PathLike object")
    else .error (valueError ("File path not found for " ++ pyStrJOpt (jGet fileInfo "filename")))
  else if jHasKey fileInfo "storage_url" then
    let su := jGetD fileInfo "storage_url" .null
    if jTruthy su then
      match su with
      | .str u =>
        (match env.download u with
         | none => .error (valueError ("Failed to download file from storage: " ++ u))
         | some _ => .ok ())
      | _ => .error (typeError "expected str, bytes or os.PathLike object")
    else .error (valueError ("Storage URL not found for " ++ pyStrJOpt (jGet fileInfo "filename")))
  else
    .error (valueError ("No file source found for " ++ pyStrJOpt (jGet fileInfo "filename") ++
      ". Missing \x27file_path\x27 or \x27storage_url\x27."))

/-- One per-file result of a CLASSIFY job (the dicts built at `worker.py`
262-268, 277-288, 291-297, 313-319).  Keys absent from a particular dict are
modelled as `.null` defaults; no theorem depends on key presence. -/
structure ClassifyFileResult where
  filename : JValue
  routing : JValue
  channel : JValue
  topicType : JValue := .null
  topicTitle : JValue := .null
  urgency : JValue := .null
  deadline : JValue := .null
  authority : JValue := .null
  reasoning : JValue := .null
  status : String
  error : Option String := none

/-- The `try` block of classify's `process_file` (`worker.py` 193-288):
resolve bytes, extract, return a `failed` result on empty text, otherwise
call the LLM under the per-file timeout and return a `success` result. -/
def classifyFileBody (env : FileEnv) (fileInfo : JValue) : Except PyExn ClassifyFileResult :=
  match resolveBytes env fileInfo with
  | .error e => .error e
  | .ok _ =>
    match env.extractText with
    | .error e => .error e
    | .ok text =>
      if text = "" ∨ pyStrip text = "" then
        match jGet fileInfo "filename" with
        | some fn => .ok { filename := fn, routing := .str "ARCHIVE", channel := .str "ARCHIVE",
                           status := "failed", error := some "No text extracted" }
        | none => .error (keyError "filename")
      else
        match env.llm with
        | .timeout => .error { typeName := "TimeoutError", msg := "" }
        | .exn e => .error e
        | .ok rr =>
          match jGet fileInfo "filename" with
          | some fn =>
            .ok { filename := fn,
                  routing := jGetD rr "routing" (.str "ARCHIVE"),
                  channel := (jGet rr "channel").getD .null,
                  topicType := (jGet rr "topic_type").getD .null,
                  topicTitle := (jGet rr "topic_title").getD .null,
                  urgency := (jGet rr "urgency").getD .null,
                  deadline := (jGet rr "deadline").getD .null,
                  authority := (jGet rr "authority").getD .null,
                  reasoning := (jGet rr "reasoning").getD .null,
                  status := "success" }
          | none => .error (keyError "filename")

/-- classify's `process_file` with its `except Exception` handler
(`worker.py` 289-297): any exception becomes an `error` result with routing
defaulted to ARCHIVE; only a missing `filename` key escapes (the handler
itself indexes `file_info["filename"]`). -/
def processFileClassify (env : FileEnv) (fileInfo : JValue) : Except PyExn ClassifyFileResult :=
  match classifyFileBody env fileInfo with
  | .ok r => .ok r
  | .error e =>
    match jGet fileInfo "filename" with
    | some fn => .ok { filename := fn, routing := .str "ARCHIVE", channel := .str "ARCHIVE",
                       status := "error", error := some e.msg }
    | none => .error (keyError "filename")

/-- One per-file result of an ANALYZE job (`worker.py` 497-527, 544-548). -/
structure AnalyzeFileResult where
  filename : JValue
  analysis : Option JValue := none
  status : String
  error : Option String := none
  /-- `extracted_text[:1000]` -/
  extractedText : Option String := none

/-- The `try` block of analyze's `process_file` (`worker.py` 428-520). -/
def analyzeFileBody (env : FileEnv) (fileInfo : JValue) : Except PyExn AnalyzeFileResult :=
  match resolveBytes env fileInfo with
  | .error e => .error e
  | .ok _ =>
    match env.extractText with
    | .error e => .error e
    | .ok text =>
      if text = "" ∨ pyStrip text = "" then
        match jGet fileInfo "filename" with
        | some fn => .ok { filename := fn, status := "failed", error := some "No text extracted" }
        | none => .error (keyError "filename")
      else
        match env.llm with
        | .timeout => .error { typeName := "TimeoutError", msg := "" }
        | .exn e => .error e
        | .ok ar =>
          match jGet fileInfo "filename" with
          | some fn =>
            .ok { filename := fn, analysis := some ar, status := "success",
                  extractedText := some (⟨text.data.take 1000⟩) }
          | none => .error (keyError "filename")

/-- analyze's `process_file` with its `except Exception` handler
(`worker.py` 521-527). -/
def processFileAnalyze (env : FileEnv) (fileInfo : JValue) : Except PyExn AnalyzeFileResult :=
  match analyzeFileBody env fileInfo with
  | .ok r => .ok r
  | .error e =>
    match jGet fileInfo "filename" with
    | some fn => .ok { filename := fn, status := "error", error := some e.msg }
    | none => .error (keyError "filename")

/-! ### Transient-error classification (`worker.py` 88-106) -/

def isTransientError (e : PyExn) : Bool :=
  let s := pyLower e.msg
  if strContains s "502" || strContains s "gateway error" || strContains s "network connection lost" then
    true
  else if strContains s "connection" && (strContains s "lost" || strContains s "timeout" || strContains s "reset") then
    true
  else if e.typeName = "ConnectionError" ∨ e.typeName = "TimeoutError" ∨ e.typeName = "APIError" then
    (match e.code with
     | some c => c == 502 || c == 503 || c == 504
     | none => false)
    || strContains s "502" || strContains s "503" || strContains s "504"
  else false

/-! ### The progress computation (`worker.py` 329 and 554)

The worker persists `progress = int((processed / total_files) * 100)`.
Python evaluates this in IEEE-754 binary64: `processed / total_files` is
rounded to the nearest double (ties to even), that double is multiplied by
`100` and rounded again, and `int()` truncates the product toward zero.
The result can fall below the exact `floor(processed * 100 / total)` — for
example `int((29 / 50) * 100) = 57` while the exact floor is 58.  Both
roundings are reproduced here with exact integer arithmetic on dyadic
rationals; subnormals and overflow cannot arise, because `total_files` is
the length of an in-memory Python list (below `2^63`), which keeps every
intermediate exponent far inside binary64's normal range. -/

/-- Round the non-negative rational `n / d` (`d > 0`) to the nearest
integer, ties to even. -/
def roundHalfEven (n d : Nat) : Nat :=
  let q := n / d
  let r := n % d
  if 2 * r < d then q
  else if d < 2 * r then q + 1
  else if q % 2 = 0 then q else q + 1

/-- Floor of the base-2 logarithm, fuelled; exact whenever the fuel is at
least the bit length of the argument. -/
def natLog2Fuel : Nat → Nat → Nat
  | 0, _ => 0
  | fuel + 1, q => if q ≤ 1 then 0 else 1 + natLog2Fuel fuel (q / 2)

/-- Smallest `j` with `d ≤ n * 2^j`, found by doubling (fuelled). -/
def scaleUpExp : Nat → Nat → Nat → Nat → Nat
  | 0, _, _, j => j
  | fuel + 1, n, d, j => if d ≤ n then j else scaleUpExp fuel (2 * n) d (j + 1)

/-- IEEE-754 binary64 rounding (to nearest, ties to even) of the positive
rational `n / d`, returned exactly as a dyadic rational: the result
`(m, s)` has value `m / 2^s`.  The mantissa is the correctly rounded
53-bit scaling of the value: with `2^e ≤ n/d < 2^(e+1)`, the value is
scaled by `2^(52-e)` into `[2^52, 2^53)` and rounded to an integer, ties
to even.  (Values here never exceed `2^52`, so `52 - e` stays
non-negative.) -/
def roundB64 (n d : Nat) : Nat × Nat :=
  if n = 0 ∨ d = 0 then (0, 0)
  else if d ≤ n then
    let e := natLog2Fuel 64 (n / d)
    (roundHalfEven (n * 2 ^ (52 - e)) d, 52 - e)
  else
    let j := scaleUpExp d n d 0
    (roundHalfEven (n * 2 ^ (52 + j)) d, 52 + j)

/-- `int((p / total) * 100)` exactly as the worker computes it in binary64:
round `p / total` to a double, multiply by 100 and round again, truncate
toward zero.  (`total = 0` is unreachable: both handlers require a
non-empty file list before any progress write.) -/
def floatProgress (p total : Nat) : Nat :=
  if total = 0 then 0
  else
    let ms1 := roundB64 p total
    let ms2 := roundB64 (ms1.1 * 100) (2 ^ ms1.2)
    ms2.1 / 2 ^ ms2.2

/-! ### The per-job handlers (`worker.py` 108-390 and 392-609) -/

/-- One `update_job_status` call's payload (`job_service.py` 126-158): only
fields passed non-`None` are written (in particular `error=None` writes
nothing). -/
structure UpdateCall (R : Type) where
  status : JobStatus
  result : Option R := none
  error : Option String := none
  progress : Option Nat := none
  processedFiles : Option Nat := none

/-- The aggregate result of a completed CLASSIFY job (`worker.py` 336-344;
`processing_time` is wall clock and not modelled). -/
structure FinalClassifyResult where
  totalFiles : Nat
  successful : Nat
  failed : Nat
  inboxCount : Nat
  archiveCount : Nat
  results : List ClassifyFileResult

/-- The result-collection loop of `process_classify_job` (`worker.py`
310-330): append each gathered outcome (an exception outcome becomes an
`error` result built from `file_data[i]["filename"]`), tally routing INBOX /
ARCHIVE for non-exception outcomes, then persist
`progress = int((processed / total_files) * 100)` (binary64, see
`floatProgress`) and `processed_files` after every iteration. -/
def aggClassifyLoop (fileData : List JValue) (totalFiles : Nat) :
    List (Except PyExn ClassifyFileResult) →
    List ClassifyFileResult → Nat → Nat → List (UpdateCall FinalClassifyResult) →
    List (UpdateCall FinalClassifyResult) × Except PyExn (List ClassifyFileResult × Nat × Nat)
  | [], res, inb, arc, ws => (ws, .ok (res, inb, arc))
  | r :: rest, res, inb, arc, ws =>
    let step : Except PyExn (ClassifyFileResult × Nat × Nat) :=
      match r with
      | .error ge =>
        (match fileData.get? res.length with
         | none => .error { typeName := "IndexError", msg := "list index out of range" }
         | some fi =>
           match jGet fi "filename" with
           | none => .error (keyError "filename")
           | some fn =>
             .ok ({ filename := fn, routing := .str "ARCHIVE", channel := .str "ARCHIVE",
                    status := "error", error := some ge.msg }, inb, arc))
      | .ok result =>
        .ok (result,
             if jIsStr result.routing "INBOX" then inb + 1 else inb,
             if !jIsStr result.routing "INBOX" && jIsStr result.routing "ARCHIVE" then arc + 1 else arc)
    match step with
    | .error e => (ws, .error e)
    | .ok (newRes, inb', arc') =>
      let res' := res ++ [newRes]
      let processed := res'.length
      aggClassifyLoop fileData totalFiles rest res' inb' arc'
        (ws ++ [{ status := .processing, progress := some (floatProgress processed totalFiles),
                  processedFiles := some processed }])

/-- The `try` block of `process_classify_job` (`worker.py` 113-357).
`fileFetch` is the outcome of the file-data retry loop (121-164): `.error e`
when the loop re-raised an exception, `.ok none` when every attempt returned
no data, `.ok (some files)` on success; each file is paired with its
external-world oracle. -/
def classifyBody (fileFetch : Except PyExn (Option (List (JValue × FileEnv)))) :
    List (UpdateCall FinalClassifyResult) × Except PyExn FinalClassifyResult :=
  let w1 : UpdateCall FinalClassifyResult := { status := .processing, progress := some 0 }
  match fileFetch with
  | .error e => ([w1], .error e)
  | .ok none => ([w1], .error (valueError "No file data found for job"))
  | .ok (some files) =>
    if files.isEmpty then ([w1], .error (valueError "No file data found for job"))
    else
      let fileData := files.map Prod.fst
      let totalFiles := fileData.length
      let w2 : UpdateCall FinalClassifyResult :=
        { status := .processing, progress := some 0, processedFiles := some 0 }
      let rrs := files.map fun p => processFileClassify p.2 p.1
      let (ws, agg) := aggClassifyLoop fileData totalFiles rrs [] 0 0 []
      match agg with
      | .error e => ([w1, w2] ++ ws, .error e)
      | .ok (results, inb, arc) =>
        let successful := results.countP (fun r => r.status == "success")
        let fr : FinalClassifyResult :=
          { totalFiles := results.length, successful := successful,
            failed := results.length - successful,
            inboxCount := inb, archiveCount := arc, results := results }
        ([w1, w2] ++ ws ++
           [{ status := .completed, result := some fr, progress := some 100 }], .ok fr)

/-- What a per-job handler invocation does after its `try` block. -/
inductive HandlerOutcome (R : Type) where
  | completed (finalResult : R)
  /-- the demote-and-retry path: wait `2 ** retry_count` seconds then recurse
  with `retry_count + 1` -/
  | retryAfter (waitSeconds : Nat) (nextRetryCount : Nat)
  | markedFailed (errorMsg : String)
  /-- the handler itself raised (propagates to `asyncio.gather` in the loop) -/
  | raised (e : PyExn)

/-- The `except Exception` block of `process_classify_job` (`worker.py`
359-380).  On a transient error with retries left the source executes
`update_job_status(job_id, JobStatus.PENDING, error=None)`: `PENDING` is not
a member of the five-state `JobStatus` enum, so the attribute access raises
`AttributeError` before any update is issued.  (Had the member existed, the
`error=None` argument would still write nothing, per `update_job_status`.) -/
def classifyExceptBlock (retryCount maxRetries : Nat) (e : PyExn) :
    List (UpdateCall FinalClassifyResult) × HandlerOutcome FinalClassifyResult :=
  let errorMsg := "Job processing failed: " ++ e.msg
  if isTransientError e ∧ retryCount < maxRetries then
    match jobStatusMember "PENDING" with
    | some st => ([{ status := st }], .retryAfter (2 ^ retryCount) (retryCount + 1))
    | none => ([], .raised { typeName := "AttributeError", msg := "PENDING" })
  else
    ([{ status := .failed, error := some errorMsg }], .markedFailed errorMsg)

/-- One invocation of `process_classify_job` (`worker.py` 108-390), with
default arguments `retry_count=0, max_retries=3` at the call sites. -/
def processClassifyJob (fileFetch : Except PyExn (Option (List (JValue × FileEnv))))
    (retryCount : Nat := 0) (maxRetries : Nat := 3) :
    List (UpdateCall FinalClassifyResult) × HandlerOutcome FinalClassifyResult :=
  match classifyBody fileFetch with
  | (ws, .ok fr) => (ws, .completed fr)
  | (ws, .error e) =>
    let (ws', out) := classifyExceptBlock retryCount maxRetries e
    (ws ++ ws', out)

/-- The aggregate result of a completed ANALYZE job (`worker.py` 561-567). -/
structure FinalAnalyzeResult where
  totalFiles : Nat
  successful : Nat
  failed : Nat
  results : List AnalyzeFileResult

/-- The result-collection loop of `process_analyze_job` (`worker.py`
541-555); no routing tally. -/
def aggAnalyzeLoop (fileData : List JValue) (totalFiles : Nat) :
    List (Except PyExn AnalyzeFileResult) →
    List AnalyzeFileResult → List (UpdateCall FinalAnalyzeResult) →
    List (UpdateCall FinalAnalyzeResult) × Except PyExn (List AnalyzeFileResult)
  | [], res, ws => (ws, .ok res)
  | r :: rest, res, ws =>
    let step : Except PyExn AnalyzeFileResult :=
      match r with
      | .error ge =>
        (match fileData.get? res.length with
         | none => .error { typeName := "IndexError", msg := "list index out of range" }
         | some fi =>
           match jGet fi "filename" with
           | none => .error (keyError "filename")
           | some fn => .ok { filename := fn, status := "error", error := some ge.msg })
      | .ok result => .ok result
    match step with
    | .error e => (ws, .error e)
    | .ok newRes =>
      let res' := res ++ [newRes]
      let processed := res'.length
      aggAnalyzeLoop fileData totalFiles rest res'
        (ws ++ [{ status := .processing, progress := some (floatProgress processed totalFiles),
                  processedFiles := some processed }])

/-- The `try` block of `process_analyze_job` (`worker.py` 396-580).
`fileData?` is the result of the single `get_file_data` call (it never
raises: its own handler returns `None`). -/
def analyzeBody (fileData? : Option (List (JValue × FileEnv))) :
    List (UpdateCall FinalAnalyzeResult) × Except PyExn FinalAnalyzeResult :=
  let w1 : UpdateCall FinalAnalyzeResult := { status := .processing, progress := some 0 }
  match fileData? with
  | none => ([w1], .error (valueError "No file data found for job"))
  | some files =>
    if files.isEmpty then ([w1], .error (valueError "No file data found for job"))
    else
      let fileData := files.map Prod.fst
      let totalFiles := fileData.length
      let w2 : UpdateCall FinalAnalyzeResult :=
        { status := .processing, progress := some 0, processedFiles := some 0 }
      let rrs := files.map fun p => processFileAnalyze p.2 p.1
      let (ws, agg) := aggAnalyzeLoop fileData totalFiles rrs [] []
      match agg with
      | .error e => ([w1, w2] ++ ws, .error e)
      | .ok results =>
        let successful := results.countP (fun r => r.status == "success")
        let fr : FinalAnalyzeResult :=
          { totalFiles := results.length, successful := successful,
            failed := results.length - successful, results := results }
        ([w1, w2] ++ ws ++
           [{ status := .completed, result := some fr, progress := some 100 }], .ok fr)

/-- The `except Exception` block of `process_analyze_job` (`worker.py`
582-599).  The names `retry_count` and `max_retries` are not defined in this
function (it takes no such parameters), so whenever `is_transient_error(e)`
is true the condition's second operand raises `NameError`; otherwise the
short-circuit `and` never evaluates them and the job is marked FAILED. -/
def analyzeExceptBlock (e : PyExn) :
    List (UpdateCall FinalAnalyzeResult) × HandlerOutcome FinalAnalyzeResult :=
  let errorMsg := "Job processing failed: " ++ e.msg
  if isTransientError e then
    ([], .raised { typeName := "NameError", msg := "name \x27retry_count\x27 is not defined" })
  else
    ([{ status := .failed, error := some errorMsg }], .markedFailed errorMsg)

/-- One invocation of `process_analyze_job` (`worker.py` 392-609). -/
def processAnalyzeJob (fileData? : Option (List (JValue × FileEnv))) :
    List (UpdateCall FinalAnalyzeResult) × HandlerOutcome FinalAnalyzeResult :=
  match analyzeBody fileData? with
  | (ws, .ok fr) => (ws, .completed fr)
  | (ws, .error e) =>
    let (ws', out) := analyzeExceptBlock e
    (ws ++ ws', out)

/-! ### The ingestion front door (`main.py` 732-941)

Only the durable writes matter for the ordering claims; uploads are
abstracted to the resulting `file_urls` list and the file-reference store
step to its outcome. -/

inductive ApiWrite where
  /-- `create_job(..., status=JobStatus.CREATED)` -/
  | createJob (status : JobStatus) (endpointType : String)
  /-- a successful `store_file_storage_urls` / `store_file_data` call -/
  | storeFileRefs
  /-- an `update_job_status` call issued by the endpoint -/
  | statusWrite (u : UpdateCall Unit)

/-- `classify_documents_async` (`main.py` 732-847) after the files are read:
create the job CREATED; in the background worker, if any file made it into
`file_urls`, try the store step, and on an exception mark the job FAILED
with a "Failed to store file data" error (`main.py` 811-824); then — in all
cases — write READY with `progress=0, processed_files=0` (`main.py`
834-836). -/
def classifyAsyncFlow (fileUrls : List JValue) (storeOutcome : Except PyExn Unit) :
    List ApiWrite :=
  let bg : List ApiWrite :=
    if fileUrls.isEmpty then []
    else
      match storeOutcome with
      | .ok _ => [.storeFileRefs]
      | .error e =>
        [.statusWrite { status := .failed, error := some ("Failed to store file data: " ++ e.msg) }]
  [.createJob .created "classify"] ++ bg ++
    [.statusWrite { status := .ready, progress := some 0, processedFiles := some 0 }]

/-- `analyze_multiple_async` (`main.py` 849-941): create the job CREATED;
raise HTTP 500 when no file data was collected (`main.py` 910-911) or when
the store step raises (`main.py` 924-926) — in both cases READY is never
written; otherwise store then write READY (`main.py` 928-930).  The second
component is the detail of a raised `HTTPException`, if any. -/
def analyzeAsyncFlow (fileUrls : List JValue) (storeOutcome : Except PyExn Unit) :
    List ApiWrite × Option String :=
  let base : List ApiWrite := [.createJob .created "analyze"]
  if fileUrls.isEmpty then
    (base, some "Failed to process files. No file data to store.")
  else
    match storeOutcome with
    | .error e => (base, some ("Failed to store file data: " ++ e.msg))
    | .ok _ =>
      (base ++ [.storeFileRefs,
                .statusWrite { status := .ready, progress := some 0, processedFiles := some 0 }],
       none)

/-! ### Observed job-row state under the worker's writes

`create_job` initializes `progress = 0, processed_files = 0`
(`job_service.py` 103-105); `update_job_status` merges only the fields
passed (`job_service.py` 135-152).  `applyUpdate` is that merge restricted
to the `(processed_files, progress)` pair; `observedStates` is the sequence
of row states visible after each successive write. -/
def applyUpdate {R : Type} (st : Nat × Nat) (w : UpdateCall R) : Nat × Nat :=
  (w.processedFiles.getD st.1, w.progress.getD st.2)

def observedStates {R : Type} (init : Nat × Nat) : List (UpdateCall R) → List (Nat × Nat)
  | [] => []
  | w :: ws =>
    let st := applyUpdate init w
    st :: observedStates st ws

/-- The per-iteration progress write issued by the handlers' collection
loops (`worker.py` 330 and 555), with the binary64 progress value. -/
def pUpd (R : Type) (total k : Nat) : UpdateCall R :=
  { status := .processing, progress := some (floatProgress k total), processedFiles := some k }

/-- Spec-side characterization of the final CLASSIFY payload built at
`worker.py` 332-344. -/
def classifyFinalOf (rs : List ClassifyFileResult) : FinalClassifyResult :=
  { totalFiles := rs.length,
    successful := rs.countP (fun r => r.status == "success"),
    failed := rs.length - rs.countP (fun r => r.status == "success"),
    inboxCount := rs.countP (fun r => jIsStr r.routing "INBOX"),
    archiveCount := rs.countP (fun r => !jIsStr r.routing "INBOX" && jIsStr r.routing "ARCHIVE"),
    results := rs }

/-- Spec-side characterization of the final ANALYZE payload built at
`worker.py` 557-567. -/
def analyzeFinalOf (rs : List AnalyzeFileResult) : FinalAnalyzeResult :=
  { totalFiles := rs.length,
    successful := rs.countP (fun r => r.status == "success"),
    failed := rs.length - rs.countP (fun r => r.status == "success"),
    results := rs }

/-! ## Sample inputs for concrete evaluations -/

/-- A classify-LLM payload with routing INBOX, channel TAX. -/
def llmPayload : JValue := .obj [("routing", .str "INBOX"), ("channel", .str "TAX")]

/-- A file whose bytes resolve locally, whose text extracts, and whose LLM
call returns `llmPayload`. -/
def envSuccess : FileEnv :=
  { pathExists := fun _ => true, localRead := fun _ => .ok (),
    extractText := .ok "hello world", llm := .ok llmPayload }

/-- Same, but the LLM call exceeds the per-file timeout. -/
def envTimeoutLLM : FileEnv :=
  { pathExists := fun _ => true, localRead := fun _ => .ok (),
    extractText := .ok "hello world", llm := .timeout }

/-- Same, but extraction yields only empty text. -/
def envEmptyText : FileEnv :=
  { pathExists := fun _ => true, localRead := fun _ => .ok (),
    extractText := .ok "", llm := .timeout }

/-- Same, but extraction raises. -/
def envExtractRaises : FileEnv :=
  { pathExists := fun _ => true, localRead := fun _ => .ok (),
    extractText := .error (valueError "extraction failed"), llm := .timeout }

def fileInfoA : JValue := .obj [("filename", .str "a.pdf"), ("file_path", .str "/tmp/a.pdf")]
def fileInfoB : JValue := .obj [("filename", .str "b.pdf"), ("file_path", .str "/tmp/b.pdf")]
def fileInfoC : JValue := .obj [("filename", .str "c.pdf"), ("file_path", .str "/tmp/c.pdf")]

/-- The successful classify result for a file processed under `envSuccess`. -/
def resSuccess (name : String) : ClassifyFileResult :=
  { filename := .str name, routing := .str "INBOX", channel := .str "TAX", status := "success" }

/-- The successful analyze result for a file processed under `envSuccess`. -/
def resSuccessAnalyze : AnalyzeFileResult :=
  { filename := .str "a.pdf", analysis := some llmPayload, status := "success",
    extractedText := some "hello world" }

/-- A concrete full-metadata file-reference list. -/
def fileRefSample : List JValue :=
  [.obj [("filename", .str "a.pdf"), ("file_path", .str "job-1/a.pdf"),
         ("suffix", .str ".pdf"), ("size", .num 1)]]

/-! ## Helper lemmas about the claim operation -/

lemma claimJob_fst_isSome_iff (jobId : String) (db : List DBJob) :
    ((claimJob jobId db).1).isSome ↔ ∃ j ∈ db, j.id = jobId ∧ j.status = .ready := by
  simp only [claimJob]
  have h1 : ∀ l : List DBJob, (l.head?).isSome ↔ l ≠ [] := by
    intro l; cases l <;> simp
  rw [h1, Ne, List.filterMap_eq_nil_iff]
  push_neg
  constructor
  · rintro ⟨j, hj, hfj⟩
    by_cases hc : j.id = jobId ∧ j.status = .ready
    · exact ⟨j, hj, hc⟩
    · simp [hc] at hfj
  · rintro ⟨j, hj, hc⟩
    exact ⟨j, hj, by simp [hc]⟩

lemma claimJob_fst_fields (jobId : String) (db : List DBJob) (r : DBJob)
    (h : (claimJob jobId db).1 = some r) : r.id = jobId ∧ r.status = .processing := by
  simp only [claimJob] at h
  have hmem : r ∈ db.filterMap fun j =>
      if j.id = jobId ∧ j.status = .ready then some { j with status := .processing } else none := by
    cases hl : db.filterMap fun j =>
        if j.id = jobId ∧ j.status = .ready then some { j with status := .processing } else none with
    | nil => rw [hl] at h; simp at h
    | cons x xs =>
      rw [hl] at h
      simp at h
      rw [h]
      exact List.mem_cons_self r xs
  obtain ⟨j, _, hfj⟩ := List.mem_filterMap.mp hmem
  by_cases hc : j.id = jobId ∧ j.status = .ready
  · rw [if_pos hc] at hfj
    simp at hfj
    rw [← hfj]
    exact ⟨by simpa using hc.1, rfl⟩
  · simp [hc] at hfj

lemma claimJob_none_unchanged (jobId : String) (db : List DBJob)
    (h : (claimJob jobId db).1 = none) : (claimJob jobId db).2 = db := by
  have hall : ∀ j ∈ db, ¬(j.id = jobId ∧ j.status = .ready) := by
    intro j hj hc
    have : ((claimJob jobId db).1).isSome := by
      rw [claimJob_fst_isSome_iff]
      exact ⟨j, hj, hc⟩
    rw [h] at this
    simp at this
  simp only [claimJob]
  calc (db.map fun j =>
          if j.id = jobId ∧ j.status = .ready then { j with status := .processing } else j)
      = db.map id := by
        apply List.map_congr_left
        intro j hj
        simp [hall j hj]
    _ = db := List.map_id db

lemma claimJob_post (jobId : String) (db : List DBJob) :
    ∀ j ∈ (claimJob jobId db).2, ¬(j.id = jobId ∧ j.status = .ready) := by
  simp only [claimJob]
  intro j hj
  obtain ⟨j₀, _, heq⟩ := List.mem_map.mp hj
  by_cases hc : j₀.id = jobId ∧ j₀.status = .ready
  · simp only [if_pos hc] at heq
    rw [← heq]
    rintro ⟨-, hst⟩
    simp at hst
  · simp only [if_neg hc] at heq
    rw [← heq]
    exact hc

lemma claimAttempts_countP_zero (jobId : String) :
    ∀ (n : Nat) (db : List DBJob), (∀ j ∈ db, ¬(j.id = jobId ∧ j.status = .ready)) →
      ((claimAttempts jobId n db).1.countP (fun o => o.isSome)) = 0 := by
  intro n
  induction n with
  | zero => intro db _; simp [claimAttempts]
  | succ m ih =>
    intro db h
    have hnone : (claimJob jobId db).1 = none := by
      by_contra hne
      have hs : ((claimJob jobId db).1).isSome := by
        cases hfst : (claimJob jobId db).1 with
        | none => exact absurd hfst hne
        | some r => simp
      obtain ⟨j, hj, hc⟩ := (claimJob_fst_isSome_iff jobId db).mp hs
      exact h j hj hc
    simp only [claimAttempts]
    rw [List.countP_cons]
    have : ((claimAttempts jobId m (claimJob jobId db).2).1.countP (fun o => o.isSome)) = 0 :=
      ih _ (claimJob_post jobId db)
    simp [hnone, this]

/-! ## Claims -/

/-- C1: the claim states that in every poll cycle the worker attempts
`claimJob` on each READY job it takes and dispatches a per-job handler only
if the claim succeeded.  The poll cycle of `worker_loop` (`worker.py`
638-651) dispatches every taken job directly; evaluating it on a concrete
READY list produces dispatch events and no claim-attempt event at all, so a
job is processed without any READY-to-PROCESSING claim. -/
theorem worker_dispatches_without_claim :
    pollCycleDispatch
        [{ id := "job-1", endpointType := some "classify" },
         { id := "job-2", endpointType := some "analyze" }] =
      [.dispatchClassify "job-1", .dispatchAnalyze "job-2"] ∧
    (pollCycleDispatch
        [{ id := "job-1", endpointType := some "classify" },
         { id := "job-2", endpointType := some "analyze" }]).countP
      LoopEvent.isClaimAttempt = 0 := by
  refine ⟨?_, ?_⟩ <;> rfl

/-- C2: `claim_job` performs the conditional update
`status=PROCESSING WHERE id=id AND status=READY`; it returns the updated row
exactly when the job was READY at claim time, returns `none` and leaves the
table unchanged otherwise, and among `n ≥ 1` serialized concurrent attempts
on a READY job exactly one succeeds. -/
theorem claimJob_exclusive (jobId : String) (db : List DBJob) :
    (((claimJob jobId db).1).isSome ↔ ∃ j ∈ db, j.id = jobId ∧ j.status = .ready) ∧
    (∀ r, (claimJob jobId db).1 = some r → r.id = jobId ∧ r.status = .processing) ∧
    ((claimJob jobId db).1 = none → (claimJob jobId db).2 = db) ∧
    (∀ n, 1 ≤ n → (∃ j ∈ db, j.id = jobId ∧ j.status = .ready) →
      ((claimAttempts jobId n db).1.countP (fun o => o.isSome)) = 1) := by
  refine ⟨claimJob_fst_isSome_iff jobId db, claimJob_fst_fields jobId db,
          claimJob_none_unchanged jobId db, ?_⟩
  intro n hn hready
  obtain ⟨m, rfl⟩ : ∃ m, n = m + 1 := ⟨n - 1, by omega⟩
  have hsome : ((claimJob jobId db).1).isSome := (claimJob_fst_isSome_iff jobId db).mpr hready
  simp only [claimAttempts]
  rw [List.countP_cons]
  rw [claimAttempts_countP_zero jobId m _ (claimJob_post jobId db)]
  simp [hsome]

/-- Witness for C2 at a concrete one-row table and three attempts. -/
theorem claimJob_exclusive_witness :
    (∃ j ∈ [DBJob.mk "j1" .ready], j.id = "j1" ∧ j.status = .ready) ∧
    ((claimAttempts "j1" 3 [DBJob.mk "j1" .ready]).1.countP (fun o => o.isSome)) = 1 :=
  ⟨⟨⟨"j1", .ready⟩, by simp, rfl, rfl⟩,
   (claimJob_exclusive "j1" [DBJob.mk "j1" .ready]).2.2.2 3 (by omega)
     ⟨⟨"j1", .ready⟩, by simp, rfl, rfl⟩⟩

/-- C3: the claim states that a transient job-fatal error makes the worker
demote the job to READY, clear its error, back off `2^retryCount` seconds
and retry up to 3 times, after which (or immediately for non-transient
errors) the job is marked FAILED.  On the code, the transient branch of
`process_classify_job` evaluates `JobStatus.PENDING` (`worker.py` 373) —
not a member of the five-state enum (`job_service.py` 17-23) — so it raises
`AttributeError` and neither demotes, retries, nor marks the job FAILED;
`process_analyze_job`'s branch (`worker.py` 592) reads the undefined name
`retry_count` and raises `NameError`.  The non-transient path does mark the
job FAILED.  Evaluated here at a persistent 502 storage error and at the
no-file-data error. -/
theorem transient_retry_path_raises :
    isTransientError ⟨"APIError", "502 Bad Gateway", some 502⟩ = true ∧
    jobStatusMember "PENDING" = none ∧
    classifyExceptBlock 0 3 ⟨"APIError", "502 Bad Gateway", some 502⟩ =
      ([], .raised ⟨"AttributeError", "PENDING", none⟩) ∧
    analyzeExceptBlock ⟨"APIError", "502 Bad Gateway", some 502⟩ =
      ([], .raised ⟨"NameError", "name \x27retry_count\x27 is not defined", none⟩) ∧
    processClassifyJob (.error ⟨"APIError", "502 Bad Gateway", some 502⟩) =
      ([{ status := .processing, progress := some 0 }],
       .raised ⟨"AttributeError", "PENDING", none⟩) ∧
    classifyExceptBlock 0 3 (valueError "No file data found for job") =
      ([{ status := .failed, error := some "Job processing failed: No file data found for job" }],
       .markedFailed "Job processing failed: No file data found for job") := by
  refine ⟨?_, ?_, ?_, ?_, ?_, ?_⟩ <;> rfl

/-- C4: the claim states the job is set READY only after the uploads and the
file-reference write both succeed, and in particular a job marked FAILED by
a file-reference store failure is not subsequently set READY.  In
`classify_documents_async` the READY write (`main.py` 836) is unconditional:
after the store step raises and the job is marked FAILED (`main.py`
820-824), READY is still written.  (`analyze_multiple_async` does satisfy
the ordering: a store failure raises HTTP 500 before the READY write.) -/
theorem ready_written_after_store_failure :
    classifyAsyncFlow [.str "job-1/a.pdf"] (.error (valueError "database update failed")) =
      [.createJob .created "classify",
       .statusWrite { status := .failed,
                      error := some "Failed to store file data: database update failed" },
       .statusWrite { status := .ready, progress := some 0, processedFiles := some 0 }] ∧
    analyzeAsyncFlow [.str "job-1/a.pdf"] (.error (valueError "database update failed")) =
      ([.createJob .created "analyze"],
       some "Failed to store file data: database update failed") ∧
    classifyAsyncFlow [.str "job-1/a.pdf"] (.ok ()) =
      [.createJob .created "classify", .storeFileRefs,
       .statusWrite { status := .ready, progress := some 0, processedFiles := some 0 }] := by
  refine ⟨?_, ?_, ?_⟩ <;> rfl

/-- C5: the claim states that a list stored natively, as a JSON-encoded
string, or as a quoted-and-escaped (double-encoded) JSON string decodes to
the identical sequence.  The first two do; but `json.loads` on the
double-encoded value succeeds and yields the inner JSON text as a *string*
(third conjunct), which the reader then discards as "not a list"
(`job_service.py` 450-455) — the quote-stripping fallback only runs on a
`JSONDecodeError`, so the double-encoded form is treated as absent and
resolution falls through (last conjunct), despite the comment at
`job_service.py` 430 claiming both cases are handled. -/
theorem double_encoded_refs_dropped :
    decodeFullMeta (some (.arr fileRefSample)) = some fileRefSample ∧
    decodeFullMeta (some (.str (jsonDumps (.arr fileRefSample)))) = some fileRefSample ∧
    jsonLoads (jsonDumps (.str (jsonDumps (.arr fileRefSample)))) =
      some (.str (jsonDumps (.arr fileRefSample))) ∧
    decodeFullMeta (some (.str (jsonDumps (.str (jsonDumps (.arr fileRefSample)))))) = none ∧
    getFileData
      { fileStorageUrls := some (.str (jsonDumps (.str (jsonDumps (.arr fileRefSample))))) } =
      none := by
  refine ⟨?_, ?_, ?_, ?_, ?_⟩ <;> rfl

/-- Expanding a list of non-empty locator strings never raises and expands
each locator in order. -/
lemma expandSimple_strings (ps : List String) (h : ∀ p ∈ ps, p ≠ "") :
    expandSimple (ps.map JValue.str) = .ok (ps.map expandLocator) := by
  induction ps with
  | nil => rfl
  | cons p ps ih =>
    have hp : p ≠ "" := h p (List.mem_cons_self p ps)
    have ht : jTruthy (.str p) = true := by
      simp [jTruthy, hp]
    simp only [List.map_cons, expandSimple, ht, if_pos]
    rw [ih (fun q hq => h q (List.mem_cons_of_mem p hq))]
    rfl

/-- C6: file-reference resolution priority: a non-empty decode of the
full-metadata field is used exclusively; otherwise a non-empty
simple-locator list is expanded (filename = final path segment, suffix =
that filename's extension, size = null); otherwise the legacy field; if all
three yield nothing resolution returns none and the worker raises the
job-fatal `No file data found for job` error (marking the job FAILED, with
no per-file results). -/
theorem getFileData_priority (full fu legacy : Option JValue) :
    (∀ xs, decodeFullMeta full = some xs →
      getFileData { fileStorageUrls := full, fileUrls := fu, fileDataOld := legacy } = some xs) ∧
    (∀ ps : List String, decodeFullMeta full = none → fu = some (.arr (ps.map JValue.str)) →
      ps ≠ [] → (∀ p ∈ ps, p ≠ "") →
      getFileData { fileStorageUrls := full, fileUrls := fu, fileDataOld := legacy } =
        some (ps.map expandLocator)) ∧
    (∀ p : String, strContains p "/" = true →
      jGet (expandLocator p) "filename" = some (.str (posixPathName p)) ∧
      jGet (expandLocator p) "suffix" = some (.str (posixSuffix (posixPathName p))) ∧
      jGet (expandLocator p) "size" = some .null) ∧
    (decodeFullMeta full = none → (fu = none ∨ fu = some (.arr [])) →
      getFileData { fileStorageUrls := full, fileUrls := fu, fileDataOld := legacy } =
        decodeLegacy legacy) ∧
    (processClassifyJob (.ok none) =
      ([{ status := .processing, progress := some 0 },
        { status := .failed, error := some "Job processing failed: No file data found for job" }],
       .markedFailed "Job processing failed: No file data found for job")) := by
  refine ⟨?_, ?_, ?_, ?_, ?_⟩
  · intro xs hxs
    simp [getFileData, hxs]
  · intro ps hfull hfu hne hps
    have hlen : (ps.map JValue.str) ≠ [] := by
      simpa using hne
    simp only [getFileData, hfull, hfu]
    rw [expandSimple_strings ps hps]
    have h1 : (ps.map JValue.str).isEmpty = false := by
      simp [List.isEmpty_iff, hlen]
    have h2 : (ps.map expandLocator).isEmpty = false := by
      simp [List.isEmpty_iff, hne]
    simp [h1, h2]
  · intro p hp
    unfold expandLocator
    simp only [hp, if_pos, jGet, List.lookup]
    refine ⟨rfl, ?_, rfl⟩
    by_cases hf : posixPathName p = ""
    · simp [hf, posixSuffix]
    · simp [hf]
  · intro hfull hfu
    rcases hfu with h | h <;> simp [getFileData, hfull, h]
  · rfl

/-- Witness for C6: the full-metadata tier at a one-element native list and
the simple-locator tier at one locator. -/
theorem getFileData_priority_witness :
    decodeFullMeta (some (.arr fileRefSample)) = some fileRefSample ∧
    getFileData { fileStorageUrls := some (.arr fileRefSample),
                  fileUrls := some (.arr [.str "x"]) } = some fileRefSample ∧
    getFileData { fileUrls := some (.arr [.str "job-1/b.pdf"]) } =
      some [expandLocator "job-1/b.pdf"] :=
  ⟨rfl,
   (getFileData_priority (some (.arr fileRefSample)) (some (.arr [.str "x"])) none).1
     fileRefSample rfl,
   (getFileData_priority none (some (.arr [.str "job-1/b.pdf"])) none).2.1
     ["job-1/b.pdf"] rfl rfl (by simp) (by simp)⟩

/-! ## The handlers on exception-free batches

When every per-file pipeline run returns a result (which it always does
whenever the file dict carries a `filename`), the collection loop appends
all results in order, tallies routing, and emits one progress write per
file; the handler then writes the COMPLETED update.  The spec-side
characterizations below are proved equal to the code's output. -/

lemma aggClassifyLoop_all_ok (fileData : List JValue) (total : Nat)
    (rs : List ClassifyFileResult) :
    ∀ (res : List ClassifyFileResult) (inb arc : Nat)
      (ws : List (UpdateCall FinalClassifyResult)),
      aggClassifyLoop fileData total (rs.map Except.ok) res inb arc ws =
        (ws ++ (List.range' (res.length + 1) rs.length).map (pUpd FinalClassifyResult total),
         .ok (res ++ rs,
              inb + rs.countP (fun r => jIsStr r.routing "INBOX"),
              arc + rs.countP (fun r => !jIsStr r.routing "INBOX" && jIsStr r.routing "ARCHIVE"))) := by
  induction rs with
  | nil =>
    intro res inb arc ws
    simp [aggClassifyLoop]
  | cons r rs ih =>
    intro res inb arc ws
    simp only [List.map_cons, aggClassifyLoop]
    rw [ih]
    simp only [List.length_append, List.length_cons, List.length_nil, Nat.zero_add]
    rw [List.range'_succ]
    simp only [List.map_cons, List.countP_cons, pUpd, Prod.mk.injEq, Except.ok.injEq]
    refine ⟨?_, ?_, ?_, ?_⟩
    · simp [List.append_assoc]
    · simp [List.append_assoc]
    · split_ifs <;> omega
    · split_ifs <;> omega

lemma aggAnalyzeLoop_all_ok (fileData : List JValue) (total : Nat)
    (rs : List AnalyzeFileResult) :
    ∀ (res : List AnalyzeFileResult) (ws : List (UpdateCall FinalAnalyzeResult)),
      aggAnalyzeLoop fileData total (rs.map Except.ok) res ws =
        (ws ++ (List.range' (res.length + 1) rs.length).map (pUpd FinalAnalyzeResult total),
         .ok (res ++ rs)) := by
  induction rs with
  | nil =>
    intro res ws
    simp [aggAnalyzeLoop]
  | cons r rs ih =>
    intro res ws
    simp only [List.map_cons, aggAnalyzeLoop]
    rw [ih]
    simp only [List.length_append, List.length_cons, List.length_nil, Nat.zero_add]
    rw [List.range'_succ]
    simp only [List.map_cons, pUpd, Prod.mk.injEq, Except.ok.injEq]
    refine ⟨?_, ?_⟩
    · simp [List.append_assoc]
    · simp [List.append_assoc]

lemma classifyBody_all_ok (files : List (JValue × FileEnv)) (rs : List ClassifyFileResult)
    (hne : files ≠ [])
    (hmap : files.map (fun p => processFileClassify p.2 p.1) = rs.map Except.ok) :
    classifyBody (.ok (some files)) =
      ({ status := .processing, progress := some 0 } ::
       { status := .processing, progress := some 0, processedFiles := some 0 } ::
       ((List.range' 1 rs.length).map (pUpd FinalClassifyResult files.length) ++
        [{ status := .completed, result := some (classifyFinalOf rs), progress := some 100 }]),
       .ok (classifyFinalOf rs)) := by
  have hne' : files.isEmpty = false := by
    simp [List.isEmpty_iff, hne]
  simp only [classifyBody, hne', Bool.false_eq_true, if_false]
  rw [hmap, aggClassifyLoop_all_ok]
  simp only [List.length_nil, List.nil_append, List.length_map, Nat.zero_add,
    List.countP_nil, Nat.add_zero, classifyFinalOf]
  have hlen : rs.length = files.length := by
    have := congrArg List.length hmap
    simpa using this.symm
  simp [hlen]

lemma analyzeBody_all_ok (files : List (JValue × FileEnv)) (rs : List AnalyzeFileResult)
    (hne : files ≠ [])
    (hmap : files.map (fun p => processFileAnalyze p.2 p.1) = rs.map Except.ok) :
    analyzeBody (some files) =
      ({ status := .processing, progress := some 0 } ::
       { status := .processing, progress := some 0, processedFiles := some 0 } ::
       ((List.range' 1 rs.length).map (pUpd FinalAnalyzeResult files.length) ++
        [{ status := .completed, result := some (analyzeFinalOf rs), progress := some 100 }]),
       .ok (analyzeFinalOf rs)) := by
  have hne' : files.isEmpty = false := by
    simp [List.isEmpty_iff, hne]
  simp only [analyzeBody, hne', Bool.false_eq_true, if_false]
  rw [hmap, aggAnalyzeLoop_all_ok]
  simp only [List.length_nil, List.nil_append, List.length_map, Nat.zero_add,
    List.countP_nil, Nat.add_zero, analyzeFinalOf]
  have hlen : rs.length = files.length := by
    have := congrArg List.length hmap
    simpa using this.symm
  simp [hlen]

/-! ## Observed progress states -/

lemma observedStates_append {R : Type} (l1 l2 : List (UpdateCall R)) :
    ∀ init, observedStates init (l1 ++ l2) =
      observedStates init l1 ++
        observedStates ((observedStates init l1).getLastD init) l2 := by
  induction l1 with
  | nil => intro init; simp [observedStates]
  | cons w l1 ih =>
    intro init
    simp only [List.cons_append, observedStates, List.append_eq, List.getLastD_cons]
    rw [ih]

lemma observedStates_pUpd (R : Type) (N : Nat) :
    ∀ (ks : List Nat) (init : Nat × Nat),
      observedStates init (ks.map (pUpd R N)) = ks.map fun k => (k, floatProgress k N) := by
  intro ks
  induction ks with
  | nil => intro init; rfl
  | cons k ks ih => intro init; simp [observedStates, applyUpdate, pUpd, ih]

/-- The row states observed under the write trace of a successful handler
run: `(0,0)` twice, then `(k, floatProgress k N)` for `k = 1..N`, then
`(N, 100)` (the COMPLETED write persists the literal 100 and does not pass
`processed_files`). -/
lemma observedStates_trace (R : Type) (N : Nat) (hN : 0 < N) (fr : R) :
    observedStates (0, 0)
      ({ status := .processing, progress := some 0 } ::
       { status := .processing, progress := some 0, processedFiles := some 0 } ::
       ((List.range' 1 N).map (pUpd R N) ++
        [{ status := .completed, result := some fr, progress := some 100 }])) =
      (0, 0) :: (0, 0) ::
        (((List.range' 1 N).map fun k => (k, floatProgress k N)) ++ [(N, 100)]) := by
  obtain ⟨m, rfl⟩ : ∃ m, N = m + 1 := ⟨N - 1, by omega⟩
  have hstep : observedStates (R := R) (0, 0)
      ({ status := .processing, progress := some 0 } ::
       { status := .processing, progress := some 0, processedFiles := some 0 } ::
       ((List.range' 1 (m + 1)).map (pUpd R (m + 1)) ++
        [{ status := .completed, result := some fr, progress := some 100 }])) =
      (0, 0) :: (0, 0) ::
        observedStates (0, 0)
          ((List.range' 1 (m + 1)).map (pUpd R (m + 1)) ++
           [{ status := .completed, result := some fr, progress := some 100 }]) := rfl
  rw [hstep, observedStates_append, observedStates_pUpd]
  rw [List.range'_concat, List.map_append]
  simp only [List.map_cons, List.map_nil, List.getLastD_concat, Nat.one_mul]
  simp [observedStates, applyUpdate, Nat.add_comm 1 m]

/-- Structural facts about the observed states: the persisted
`processed_files` sequence is non-decreasing and bounded by the file
count. -/
lemma trace_state_props (N : Nat) (_hN : 0 < N) :
    List.Pairwise (fun a b : Nat × Nat => a.1 ≤ b.1)
      ((0, 0) :: (0, 0) ::
        (((List.range' 1 N).map fun k => (k, floatProgress k N)) ++ [(N, 100)])) ∧
    ∀ st ∈ (0, 0) :: (0, 0) ::
        (((List.range' 1 N).map fun k => (k, floatProgress k N)) ++ [(N, 100)]),
      st.1 ≤ N := by
  have hmemN : ∀ k ∈ List.range' 1 N, 1 ≤ k ∧ k ≤ N := by
    intro k hk
    have := List.mem_range'_1.mp hk
    omega
  constructor
  · refine List.pairwise_cons.mpr ⟨?_, List.pairwise_cons.mpr ⟨?_, ?_⟩⟩
    · intro st hst
      rcases List.mem_cons.mp hst with rfl | hst
      · exact le_rfl
      rcases List.mem_append.mp hst with hst | hst
      · obtain ⟨k, _, rfl⟩ := List.mem_map.mp hst
        exact Nat.zero_le _
      · simp only [List.mem_singleton] at hst
        subst hst
        exact Nat.zero_le _
    · intro st hst
      rcases List.mem_append.mp hst with hst | hst
      · obtain ⟨k, _, rfl⟩ := List.mem_map.mp hst
        exact Nat.zero_le _
      · simp only [List.mem_singleton] at hst
        subst hst
        exact Nat.zero_le _
    · rw [List.pairwise_append]
      refine ⟨?_, List.pairwise_singleton _ _, ?_⟩
      · rw [List.pairwise_map]
        refine List.Pairwise.imp ?_ (List.pairwise_lt_range' 1 N)
        intro a b hab
        exact Nat.le_of_lt hab
      · intro a ha b hb
        obtain ⟨k, hk, rfl⟩ := List.mem_map.mp ha
        simp only [List.mem_singleton] at hb
        subst hb
        exact (hmemN k hk).2
  · intro st hst
    rcases List.mem_cons.mp hst with rfl | hst
    · exact Nat.zero_le _
    rcases List.mem_cons.mp hst with rfl | hst
    · exact Nat.zero_le _
    rcases List.mem_append.mp hst with hst | hst
    · obtain ⟨k, hk, rfl⟩ := List.mem_map.mp hst
      exact (hmemN k hk).2
    · simp only [List.mem_singleton] at hst
      subst hst
      exact le_rfl

/-! ## Per-file pipeline lemmas -/

lemma classify_timeout_result (env : FileEnv) (fi fn : JValue) (text : String)
    (hfn : jGet fi "filename" = some fn) (hres : resolveBytes env fi = .ok ())
    (hext : env.extractText = .ok text) (htext : ¬(text = "" ∨ pyStrip text = ""))
    (hllm : env.llm = .timeout) :
    processFileClassify env fi =
      .ok { filename := fn, routing := .str "ARCHIVE", channel := .str "ARCHIVE",
            status := "error", error := some "" } := by
  unfold processFileClassify classifyFileBody
  rw [hres, hext]
  dsimp only
  rw [if_neg htext, hllm]
  dsimp only
  rw [hfn]

lemma analyze_timeout_result (env : FileEnv) (fi fn : JValue) (text : String)
    (hfn : jGet fi "filename" = some fn) (hres : resolveBytes env fi = .ok ())
    (hext : env.extractText = .ok text) (htext : ¬(text = "" ∨ pyStrip text = ""))
    (hllm : env.llm = .timeout) :
    processFileAnalyze env fi = .ok { filename := fn, status := "error", error := some "" } := by
  unfold processFileAnalyze analyzeFileBody
  rw [hres, hext]
  dsimp only
  rw [if_neg htext, hllm]
  dsimp only
  rw [hfn]

lemma classify_extract_error_result (env : FileEnv) (fi fn : JValue) (ex : PyExn)
    (hfn : jGet fi "filename" = some fn) (hres : resolveBytes env fi = .ok ())
    (hext : env.extractText = .error ex) :
    processFileClassify env fi =
      .ok { filename := fn, routing := .str "ARCHIVE", channel := .str "ARCHIVE",
            status := "error", error := some ex.msg } := by
  unfold processFileClassify classifyFileBody
  rw [hres, hext]
  dsimp only
  rw [hfn]

lemma classifyFileBody_ok_shape (env : FileEnv) (fi : JValue) (rb : ClassifyFileResult)
    (hb : classifyFileBody env fi = .ok rb) :
    rb.status = "success" ∨ (rb.status = "failed" ∧ rb.routing = .str "ARCHIVE") := by
  unfold classifyFileBody at hb
  cases hres : resolveBytes env fi with
  | error e => rw [hres] at hb; simp at hb
  | ok u =>
    rw [hres] at hb
    cases hext : env.extractText with
    | error e => rw [hext] at hb; simp at hb
    | ok text =>
      rw [hext] at hb
      dsimp only at hb
      by_cases ht : text = "" ∨ pyStrip text = ""
      · rw [if_pos ht] at hb
        cases hfn : jGet fi "filename" with
        | none => rw [hfn] at hb; simp at hb
        | some fn =>
          rw [hfn] at hb
          simp at hb
          subst hb
          exact Or.inr ⟨rfl, rfl⟩
      · rw [if_neg ht] at hb
        cases hllm : env.llm with
        | timeout => rw [hllm] at hb; simp at hb
        | exn e => rw [hllm] at hb; simp at hb
        | ok rr =>
          rw [hllm] at hb
          cases hfn : jGet fi "filename" with
          | none => rw [hfn] at hb; simp at hb
          | some fn =>
            rw [hfn] at hb
            simp at hb
            subst hb
            exact Or.inl rfl

lemma processFileClassify_ok_routing (env : FileEnv) (fi : JValue) (r : ClassifyFileResult)
    (h : processFileClassify env fi = .ok r) :
    r.status = "success" ∨ r.routing = .str "ARCHIVE" := by
  unfold processFileClassify at h
  cases hb : classifyFileBody env fi with
  | ok rb =>
    rw [hb] at h
    simp at h
    subst h
    rcases classifyFileBody_ok_shape env fi rb hb with hs | ⟨_, hr⟩
    · exact Or.inl hs
    · exact Or.inr hr
  | error e =>
    rw [hb] at h
    cases hfn : jGet fi "filename" with
    | none => rw [hfn] at h; simp at h
    | some fn =>
      rw [hfn] at h
      simp at h
      subst h
      exact Or.inr rfl

/-- C7 (corrected): on a per-file LLM timeout the pipeline does NOT produce
a TIMEOUT-status (classify) or FAILED-status (analyze) result; the
`asyncio.TimeoutError` is caught by the generic per-file `except` and an
ERROR-status result is returned in both job kinds (the only statuses the
code ever emits are "success", "failed", "error").  Concrete evaluation at
a file whose LLM call times out. -/
theorem timeout_status_not_timeout :
    processFileClassify envTimeoutLLM fileInfoA =
      .ok { filename := .str "a.pdf", routing := .str "ARCHIVE", channel := .str "ARCHIVE",
            status := "error", error := some "" } ∧
    processFileAnalyze envTimeoutLLM fileInfoA =
      .ok { filename := .str "a.pdf", status := "error", error := some "" } ∧
    (("error" : String) == "timeout") = false ∧
    (("error" : String) == "TIMEOUT") = false ∧
    (("error" : String) == "failed") = false := by
  refine ⟨?_, ?_, ?_, ?_, ?_⟩ <;> rfl

/-- C7 (amended): when the per-file LLM call times out, the pipeline returns
an ERROR-status result — with routing defaulted to ARCHIVE for CLASSIFY
jobs, and a plain ERROR result for ANALYZE jobs — and the timeout never
aborts the job or the sibling files: any batch whose per-file runs all
return results (timed-out ones included) completes with one result per
file. -/
theorem timeout_yields_error_result
    (env : FileEnv) (fi fn : JValue) (text : String)
    (hfn : jGet fi "filename" = some fn)
    (hres : resolveBytes env fi = .ok ())
    (hext : env.extractText = .ok text)
    (htext : ¬(text = "" ∨ pyStrip text = ""))
    (hllm : env.llm = .timeout)
    (files : List (JValue × FileEnv)) (rs : List ClassifyFileResult)
    (hne : files ≠ [])
    (hmap : files.map (fun p => processFileClassify p.2 p.1) = rs.map Except.ok) :
    processFileClassify env fi =
      .ok { filename := fn, routing := .str "ARCHIVE", channel := .str "ARCHIVE",
            status := "error", error := some "" } ∧
    processFileAnalyze env fi = .ok { filename := fn, status := "error", error := some "" } ∧
    (processClassifyJob (.ok (some files))).2 = .completed (classifyFinalOf rs) ∧
    (classifyFinalOf rs).results.length = files.length := by
  have hlen : rs.length = files.length := by
    have := congrArg List.length hmap
    simpa using this.symm
  refine ⟨classify_timeout_result env fi fn text hfn hres hext htext hllm,
          analyze_timeout_result env fi fn text hfn hres hext htext hllm, ?_, ?_⟩
  · simp only [processClassifyJob, classifyBody_all_ok files rs hne hmap]
  · simp [classifyFinalOf, hlen]

/-- Witness for C7's amended theorem: a one-file batch whose LLM call times
out still completes. -/
theorem timeout_yields_error_result_witness :
    jGet fileInfoA "filename" = some (.str "a.pdf") ∧
    (processClassifyJob (.ok (some [(fileInfoA, envTimeoutLLM)]))).2 =
      .completed (classifyFinalOf
        [{ filename := .str "a.pdf", routing := .str "ARCHIVE", channel := .str "ARCHIVE",
           status := "error", error := some "" }]) :=
  ⟨rfl,
   (timeout_yields_error_result envTimeoutLLM fileInfoA (.str "a.pdf") "hello world"
      rfl rfl rfl (by decide) rfl [(fileInfoA, envTimeoutLLM)]
      [{ filename := .str "a.pdf", routing := .str "ARCHIVE", channel := .str "ARCHIVE",
         status := "error", error := some "" }]
      (by simp) rfl).2.2.1⟩

/-- C8: per-file isolation.  An exception raised during one file's
extraction is caught inside that file's pipeline and converted into an
ERROR-status result carrying the exception message; a batch in which
exactly one file's extraction raises and the other N−1 process normally
yields N results with exactly one marked error, and the job still reaches
COMPLETED. -/
theorem perFile_isolation
    (as cs : List (JValue × FileEnv)) (b : JValue × FileEnv)
    (asR csR : List ClassifyFileResult) (fn : JValue) (ex : PyExn)
    (hasR : as.map (fun p => processFileClassify p.2 p.1) = asR.map Except.ok)
    (hcsR : cs.map (fun p => processFileClassify p.2 p.1) = csR.map Except.ok)
    (hsa : ∀ r ∈ asR, r.status = "success")
    (hsc : ∀ r ∈ csR, r.status = "success")
    (hfn : jGet b.1 "filename" = some fn)
    (hres : resolveBytes b.2 b.1 = .ok ())
    (hex : b.2.extractText = .error ex) :
    processFileClassify b.2 b.1 =
      .ok { filename := fn, routing := .str "ARCHIVE", channel := .str "ARCHIVE",
            status := "error", error := some ex.msg } ∧
    (processClassifyJob (.ok (some (as ++ b :: cs)))).2 =
      .completed (classifyFinalOf
        (asR ++ { filename := fn, routing := .str "ARCHIVE", channel := .str "ARCHIVE",
                  status := "error", error := some ex.msg } :: csR)) ∧
    (asR ++ { filename := fn, routing := .str "ARCHIVE", channel := .str "ARCHIVE",
              status := "error", error := some ex.msg } :: csR).length =
      (as ++ b :: cs).length ∧
    (asR ++ { filename := fn, routing := .str "ARCHIVE", channel := .str "ARCHIVE",
              status := "error", error := some ex.msg } :: csR).countP
      (fun r => r.status == "error") = 1 := by
  have h1 := classify_extract_error_result b.2 b.1 fn ex hfn hres hex
  have hmap : (as ++ b :: cs).map (fun p => processFileClassify p.2 p.1) =
      (asR ++ { filename := fn, routing := .str "ARCHIVE", channel := .str "ARCHIVE",
                status := "error", error := some ex.msg } :: csR).map Except.ok := by
    simp [List.map_append, hasR, hcsR, h1]
  have hne : as ++ b :: cs ≠ [] := by simp
  have hlenAs : as.length = asR.length := by
    have := congrArg List.length hasR
    simpa using this
  have hlenCs : cs.length = csR.length := by
    have := congrArg List.length hcsR
    simpa using this
  refine ⟨h1, ?_, ?_, ?_⟩
  · simp only [processClassifyJob, classifyBody_all_ok _ _ hne hmap]
  · simp [List.length_append, hlenAs, hlenCs]
  · rw [List.countP_append, List.countP_cons]
    have hza : asR.countP (fun r => r.status == "error") = 0 := by
      rw [List.countP_eq_zero]
      intro r hr
      simp [hsa r hr]
    have hzc : csR.countP (fun r => r.status == "error") = 0 := by
      rw [List.countP_eq_zero]
      intro r hr
      simp [hsc r hr]
    simp [hza, hzc]

/-- Witness for C8: a three-file batch whose middle file's extraction
raises. -/
theorem perFile_isolation_witness :
    (∀ r ∈ [resSuccess "a.pdf"], r.status = "success") ∧
    (processClassifyJob
        (.ok (some ([(fileInfoA, envSuccess)] ++
          (fileInfoB, envExtractRaises) :: [(fileInfoC, envSuccess)])))).2 =
      .completed (classifyFinalOf
        ([resSuccess "a.pdf"] ++
          { filename := .str "b.pdf", routing := .str "ARCHIVE", channel := .str "ARCHIVE",
            status := "error", error := some "extraction failed" } :: [resSuccess "c.pdf"])) :=
  ⟨fun r hr => by rw [List.mem_singleton] at hr; subst hr; rfl,
   (perFile_isolation [(fileInfoA, envSuccess)] [(fileInfoC, envSuccess)]
      (fileInfoB, envExtractRaises) [resSuccess "a.pdf"] [resSuccess "c.pdf"]
      (.str "b.pdf") (valueError "extraction failed") rfl rfl
      (fun r hr => by rw [List.mem_singleton] at hr; subst hr; rfl)
      (fun r hr => by rw [List.mem_singleton] at hr; subst hr; rfl)
      rfl rfl rfl).2.1⟩

/-- C9 (corrected): the original claim asserts that each persisted progress
value equals `floor(processed_files / total_files * 100)`.  The worker
computes `int((processed / total_files) * 100)` in IEEE binary64
(`worker.py` 329, 554), which can fall one below the exact floor: in a
50-file job the 29th progress write persists 57 while the exact floor is
58 (and at 29 of 100 files the code persists 28, floor 29).  Shown on the
write trace of a concrete 50-file batch: the write at index 30 (the 29th
per-file write) carries progress 57. -/
theorem progress_float_truncation_counterexample :
    (classifyBody (.ok (some (List.replicate 50 (fileInfoA, envSuccess))))).1.get? 30 =
      some { status := .processing, progress := some 57, processedFiles := some 29 } ∧
    29 * 100 / 50 = 58 ∧
    floatProgress 29 50 = 57 ∧
    floatProgress 29 100 = 28 ∧
    29 * 100 / 100 = 29 := by
  refine ⟨?_, ?_, ?_, ?_, ?_⟩ <;> rfl

/-- C9 (amended): for both handlers, over any exception-free run, the
observed `(processed_files, progress)` states are exactly `(0,0)`, `(0,0)`,
then `(k, int((k / total_files) * 100))` computed in binary64 for
`k = 1..N`, and finally `(N, 100)` from the COMPLETED write, which persists
the literal 100.  Hence the persisted `processed_files` sequence is
non-decreasing and bounded above by `total_files`, each per-file progress
write carries the binary64-truncated value of its processed count (which
can fall one below the exact floor), and progress reaches 100 at
completion. -/
theorem progress_monotone_bounded
    (files : List (JValue × FileEnv)) (rs : List ClassifyFileResult)
    (files2 : List (JValue × FileEnv)) (rs2 : List AnalyzeFileResult)
    (hne : files ≠ []) (hne2 : files2 ≠ [])
    (hmap : files.map (fun p => processFileClassify p.2 p.1) = rs.map Except.ok)
    (hmap2 : files2.map (fun p => processFileAnalyze p.2 p.1) = rs2.map Except.ok) :
    ((observedStates (0, 0) (classifyBody (.ok (some files))).1 =
        (0, 0) :: (0, 0) ::
          (((List.range' 1 files.length).map fun k => (k, floatProgress k files.length)) ++
           [(files.length, 100)])) ∧
     List.Pairwise (fun a b : Nat × Nat => a.1 ≤ b.1)
       (observedStates (0, 0) (classifyBody (.ok (some files))).1) ∧
     ∀ st ∈ observedStates (0, 0) (classifyBody (.ok (some files))).1,
       st.1 ≤ files.length) ∧
    ((observedStates (0, 0) (analyzeBody (some files2)).1 =
        (0, 0) :: (0, 0) ::
          (((List.range' 1 files2.length).map fun k => (k, floatProgress k files2.length)) ++
           [(files2.length, 100)])) ∧
     List.Pairwise (fun a b : Nat × Nat => a.1 ≤ b.1)
       (observedStates (0, 0) (analyzeBody (some files2)).1) ∧
     ∀ st ∈ observedStates (0, 0) (analyzeBody (some files2)).1,
       st.1 ≤ files2.length) := by
  have hN : 0 < files.length := List.length_pos.mpr hne
  have hN2 : 0 < files2.length := List.length_pos.mpr hne2
  have hlen : rs.length = files.length := by
    have := congrArg List.length hmap
    simpa using this.symm
  have hlen2 : rs2.length = files2.length := by
    have := congrArg List.length hmap2
    simpa using this.symm
  have hw := congrArg Prod.fst (classifyBody_all_ok files rs hne hmap)
  have hw2 := congrArg Prod.fst (analyzeBody_all_ok files2 rs2 hne2 hmap2)
  rw [hlen] at hw
  rw [hlen2] at hw2
  constructor
  · rw [hw, observedStates_trace _ _ hN]
    exact ⟨rfl, (trace_state_props files.length hN).1, (trace_state_props files.length hN).2⟩
  · rw [hw2, observedStates_trace _ _ hN2]
    exact ⟨rfl, (trace_state_props files2.length hN2).1, (trace_state_props files2.length hN2).2⟩

/-- Witness for C9 at a one-file classify job and a one-file analyze job. -/
theorem progress_monotone_bounded_witness :
    ([(fileInfoA, envSuccess)] ≠ ([] : List (JValue × FileEnv))) ∧
    List.Pairwise (fun a b : Nat × Nat => a.1 ≤ b.1)
      (observedStates (0, 0) (classifyBody (.ok (some [(fileInfoA, envSuccess)]))).1) :=
  ⟨by simp,
   (progress_monotone_bounded [(fileInfoA, envSuccess)] [resSuccess "a.pdf"]
      [(fileInfoA, envSuccess)] [resSuccessAnalyze] (by simp) (by simp) rfl rfl).1.2.1⟩

/-- C10: every classify per-file result carries a routing value, defaulted
to ARCHIVE on any non-success; the final tallies count every result by its
routing value regardless of its status — so failed and errored files are
counted under ARCHIVE and `inbox_count + archive_count` can exceed the
successful count (shown at a one-file batch with empty extracted text:
`successful = 0` but `archive_count = 1`). -/
theorem classify_routing_tally
    (files : List (JValue × FileEnv)) (rs : List ClassifyFileResult)
    (hne : files ≠ [])
    (hmap : files.map (fun p => processFileClassify p.2 p.1) = rs.map Except.ok) :
    (processClassifyJob (.ok (some files))).2 = .completed (classifyFinalOf rs) ∧
    (classifyFinalOf rs).inboxCount = rs.countP (fun r => jIsStr r.routing "INBOX") ∧
    (classifyFinalOf rs).archiveCount = rs.countP (fun r => jIsStr r.routing "ARCHIVE") ∧
    (∀ r ∈ rs, r.status ≠ "success" → r.routing = .str "ARCHIVE") ∧
    (processClassifyJob (.ok (some [(fileInfoA, envEmptyText)]))).2 =
      .completed (classifyFinalOf
        [{ filename := .str "a.pdf", routing := .str "ARCHIVE", channel := .str "ARCHIVE",
           status := "failed", error := some "No text extracted" }]) ∧
    (classifyFinalOf
        [{ filename := .str "a.pdf", routing := .str "ARCHIVE", channel := .str "ARCHIVE",
           status := "failed", error := some "No text extracted" }]).successful = 0 ∧
    (classifyFinalOf
        [{ filename := .str "a.pdf", routing := .str "ARCHIVE", channel := .str "ARCHIVE",
           status := "failed", error := some "No text extracted" }]).archiveCount = 1 := by
  refine ⟨?_, rfl, ?_, ?_, ?_, rfl, rfl⟩
  · simp only [processClassifyJob, classifyBody_all_ok files rs hne hmap]
  · apply List.countP_congr
    intro r _
    cases hv : r.routing with
    | str t =>
      by_cases ht : t = "ARCHIVE"
      · subst ht
        decide
      · simp [jIsStr, ht]
    | null => simp [jIsStr]
    | bool b => simp [jIsStr]
    | num n => simp [jIsStr]
    | arr xs => simp [jIsStr]
    | obj fs => simp [jIsStr]
  · intro r hr hst
    have hmem : (Except.ok r : Except PyExn ClassifyFileResult) ∈ rs.map Except.ok :=
      List.mem_map_of_mem Except.ok hr
    rw [← hmap] at hmem
    obtain ⟨p, _, hp⟩ := List.mem_map.mp hmem
    rcases processFileClassify_ok_routing p.2 p.1 r hp with hs | ha
    · exact absurd hs hst
    · exact ha
  · rfl

/-- Witness for C10 at a one-file successful batch. -/
theorem classify_routing_tally_witness :
    ([(fileInfoA, envSuccess)] ≠ ([] : List (JValue × FileEnv))) ∧
    (processClassifyJob (.ok (some [(fileInfoA, envSuccess)]))).2 =
      .completed (classifyFinalOf [resSuccess "a.pdf"]) :=
  ⟨by simp,
   (classify_routing_tally [(fileInfoA, envSuccess)] [resSuccess "a.pdf"] (by simp) rfl).1⟩

end InboxV3
